import Mathlib

/-!
Shallow Lean embedding of the `contextor` content-intelligence subsystem
(`src/contextor/intelligence/`), together with theorems settling the claims
of the specification against it.

Modelling conventions:
* Python floats are modelled by exact arithmetic (`ℚ` where no square root is
  involved, `ℝ` for the cosine similarity).
* Python `round(x, n)` is modelled by `round (x * 10^n) / 10^n` using
  Mathlib's `round` (round-half-up; CPython uses banker's rounding, which can
  differ only at exact midpoints — no theorem below depends on a midpoint).
* Library / OS effects (datetime parsing, file IO, the `re` module cleanup
  passes) are passed in as explicit function parameters at the call sites
  where the Python code invokes them; everything written in the repository
  itself is translated directly.
-/

namespace Contextor

/-- Model of Python `round(x, 2)` over exact rationals. -/
def round2 (q : ℚ) : ℚ := (round (q * 100) : ℤ) / 100

/-- Model of Python `round(x, 3)` over exact rationals. -/
def round3 (q : ℚ) : ℚ := (round (q * 1000) : ℤ) / 1000

/-! ## IntelligenceAnalyzer orchestrator (`analyzer.py`)

File IO and parsing are modelled by explicit function parameters:
`readHash p` models the composite
`open(p)` / `frontmatter.load` / `content_hash(post.content)` performed both
by `_filter_files_for_analysis` (lines 166–169) and by `_save_analysis_state`
(lines 324–329); `Except.error ()` models that composite raising.  Paths
stand for the `str(path.relative_to(source_dir))` relative paths.  One run
uses a single `readHash` snapshot (no mid-run file mutation). -/

/-- The per-file test of `_filter_files_for_analysis` (lines 164–187): a file
needs analysis when its current content hash differs from the one stored in
the previous state (`none` when the path is absent), and a hash-computation
failure conservatively includes the file (the `except` branch, line 187). -/
def needsAnalysis (prevState : String → Option String)
    (readHash : String → Except Unit String) (p : String) : Bool :=
  match readHash p with
  | .error _ => true
  | .ok h => !(prevState p == some h)

/-- `IntelligenceAnalyzer._filter_files_for_analysis` (lines 155–189). -/
def filterFilesForAnalysis (prevState : String → Option String)
    (readHash : String → Except Unit String)
    (mdcFiles : List String) (incremental : Bool) : List String :=
  if !incremental then mdcFiles
  else mdcFiles.filter (needsAnalysis prevState readHash)

/-- `IntelligenceAnalyzer._save_analysis_state` (lines 317–345): the state
written is built from scratch (`state = {}`) from exactly the files passed in
(`analyzed_files` = the run's `files_to_analyze`), skipping any file whose
re-hash raises (lines 332–337); the `last_analyzed` timestamp stored next to
each hash is omitted from the model, nothing reads it. -/
def saveAnalysisState (readHash : String → Except Unit String)
    (analyzedFiles : List String) : List (String × String) :=
  analyzedFiles.filterMap fun p =>
    match readHash p with
    | .error _ => none
    | .ok h => some (p, h)

/-- Dictionary lookup in a saved state (first binding wins; `rglob` yields
distinct paths, so keys are distinct in any reachable state). -/
def lookupState (st : List (String × String)) (p : String) : Option String :=
  (st.find? fun q => q.1 == p).map (·.2)

/-- The state left on disk by one `analyze` run: `_save_analysis_state` is
called on the run's `files_to_analyze` (lines 85 and 146 of `analyzer.py`). -/
def analysisStateAfterRun (prevState : String → Option String)
    (readHash : String → Except Unit String)
    (mdcFiles : List String) (incremental : Bool) : List (String × String) :=
  saveAnalysisState readHash
    (filterFilesForAnalysis prevState readHash mdcFiles incremental)

/-- Result of `IntelligenceAnalyzer.analyze`: either the structured
`{"error": "No .mdc files found"}` dictionary (line 82) or the summary
counters of `analysis_results` (lines 96–103). -/
inductive AnalyzeResult where
  | collectionError : AnalyzeResult
  | summary (processed updated skipped errors : ℕ) : AnalyzeResult
deriving DecidableEq

/-- The fallible collaborators `analyze` drives, over an opaque document
payload `δ` (the `doc_data` dictionaries):
`analyzeDocument` models `_analyze_document` (lines 191–237), which catches
every exception internally and returns `None` for it, so it is total;
`relate` models `_analyze_relationships` (lines 239–255) under the `try` of
lines 122–129, returning the mutated document list or raising;
`writeDoc` models `_update_mdc_file` (lines 257–271) under the `try` of
lines 132–140.  `_update_intelligence_index` and `_save_analysis_state`
catch all their exceptions internally and touch no counter, so they do not
appear in the result model. -/
structure AnalyzeOps (δ : Type) where
  readHash : String → Except Unit String
  analyzeDocument : String → Option δ
  relate : List δ → Except Unit (List δ)
  writeDoc : δ → Except Unit Unit

/-- Phase 1 of `analyze` (lines 105–118): the `documents` list — one entry
per file `_analyze_document` succeeds on. -/
def phase1Docs {δ : Type} (ops : AnalyzeOps δ) (prevState : String → Option String)
    (mdcFiles : List String) (incremental : Bool) : List δ :=
  (filterFilesForAnalysis prevState ops.readHash mdcFiles incremental).filterMap
    ops.analyzeDocument

/-- Whether Phase 2 runs (line 121). -/
def phase2Enabled (features : List String) : Prop :=
  "cross-linking" ∈ features ∨ "duplicate-detection" ∈ features

instance (features : List String) : Decidable (phase2Enabled features) :=
  inferInstanceAs (Decidable (_ ∨ _))

/-- The error contribution of Phase 2 (lines 121–129): one error when
`_analyze_relationships` raises, zero otherwise. -/
def phase2ErrorCount {δ : Type} (ops : AnalyzeOps δ) (features : List String)
    (documents : List δ) : ℕ :=
  if phase2Enabled features then
    match ops.relate documents with
    | .error _ => 1
    | .ok _ => 0
  else 0

/-- The document list the write-back loop iterates (lines 132–140): Phase 2
mutates the documents in place when it succeeds. -/
def writebackDocs {δ : Type} (ops : AnalyzeOps δ) (features : List String)
    (documents : List δ) : List δ :=
  if phase2Enabled features then
    match ops.relate documents with
    | .error _ => documents
    | .ok ds => ds
  else documents

/-- The error contribution of the write-back loop (lines 132–140): one error
per document whose `_update_mdc_file` raises. -/
def writeFailureCount {δ : Type} (ops : AnalyzeOps δ) (documents : List δ) : ℕ :=
  documents.countP fun d =>
    match ops.writeDoc d with
    | .error _ => true
    | .ok _ => false

/-- `IntelligenceAnalyzer.analyze` (lines 48–153), counter-for-counter:
discovery failure returns the error dictionary; Phase 1 counts `processed`
for each document `_analyze_document` returns and `skipped` for each `None`
(the `except` arm at lines 114–118 is unreachable, since `_analyze_document`
catches internally — so per-document failures land in `skipped`); Phase 2
runs only when cross-linking or duplicate-detection is enabled and adds one
error if it raises; the write-back loop adds `updated` per success and one
error per failure. -/
def analyze {δ : Type} (ops : AnalyzeOps δ) (prevState : String → Option String)
    (features : List String) (mdcFiles : List String) (incremental : Bool) :
    AnalyzeResult :=
  if mdcFiles = [] then .collectionError
  else
    let filesToAnalyze := filterFilesForAnalysis prevState ops.readHash mdcFiles incremental
    let documents := filesToAnalyze.filterMap ops.analyzeDocument
    let processed := documents.length
    let skipped := filesToAnalyze.length - documents.length
    let documents2 := writebackDocs ops features documents
    let writeFailures := writeFailureCount ops documents2
    let updated := documents2.length - writeFailures
    .summary processed updated skipped
      (phase2ErrorCount ops features documents + writeFailures)


/-! ## QualityScorer (`quality_scoring.py`)

The counting of structural features of the document text
(`re.findall` for headings / code blocks / links / list markers,
`str.split` word and paragraph splitting) is performed by the Python `re`
and `str` standard library; those counts enter the model as the fields of
`ContentFeatures`, one field per count the source computes, and the scoring
arithmetic of `_score_completeness` / `_score_clarity` / `_score_freshness` /
`score_quality` is translated directly. -/

/-- Feature counts `_score_completeness` and `_score_clarity` extract from the
document text with `re` / `str.split`:
`hasTitle` — `metadata.get("title")` is truthy;
`headingCount` — number of `^#+\s+(.+)$` matches;
`wordCount` — `len(content.split())`;
`codeBlockCount` / `inlineCodeCount` — fenced blocks / inline code spans;
`linkCount` — markdown links;
`paragraphCount` — non-blank blocks when splitting on a blank line;
`sentenceLengths` — words per non-blank sentence (split on `.!?`);
`bulletCount` / `numberedCount` — list-item markers at line starts;
`longWordCount` — words longer than 12 characters;
`boldCount` / `italicCount` — bold / italic spans. -/
structure ContentFeatures where
  hasTitle : Bool
  headingCount : ℕ
  wordCount : ℕ
  codeBlockCount : ℕ
  inlineCodeCount : ℕ
  linkCount : ℕ
  paragraphCount : ℕ
  sentenceLengths : List ℕ
  bulletCount : ℕ
  numberedCount : ℕ
  longWordCount : ℕ
  boldCount : ℕ
  italicCount : ℕ

/-- Configuration of `QualityScorer.__init__` with its defaults. -/
structure QualityConfig where
  completeness_weight : ℚ := 0.4
  freshness_weight : ℚ := 0.3
  clarity_weight : ℚ := 0.3

/-- `QualityScorer._score_completeness` (lines 58–93): the additive points
accumulated into `score`, capped at `1.0` by the final `min(score, 1.0)`. -/
def scoreCompleteness (f : ContentFeatures) : ℚ :=
  min ((if f.hasTitle then (0.2 : ℚ) else 0) +
       (if 2 ≤ f.headingCount then 0.3
        else if 1 ≤ f.headingCount then 0.15 else 0) +
       (if 100 ≤ f.wordCount ∧ f.wordCount ≤ 5000 then 0.2
        else if (50 ≤ f.wordCount ∧ f.wordCount < 100) ∨
                (5000 < f.wordCount ∧ f.wordCount ≤ 10000) then 0.1
        else 0) +
       (if f.codeBlockCount ≠ 0 ∨ 3 ≤ f.inlineCodeCount then 0.15 else 0) +
       (if 2 ≤ f.linkCount then 0.15
        else if 1 ≤ f.linkCount then 0.1 else 0)) 1

/-- `avg_sentence_length` of `_score_clarity` (line 146): mean of the
per-sentence word counts. -/
def avgSentenceLength (ls : List ℕ) : ℚ := (ls.sum : ℚ) / ls.length

/-- The sentence-length banding of `_score_clarity` (lines 145–153), `0` when
there are no sentences. -/
def sentenceBandScore (ls : List ℕ) : ℚ :=
  if ls = [] then 0
  else if 15 ≤ avgSentenceLength ls ∧ avgSentenceLength ls ≤ 25 then 0.3
  else if (10 ≤ avgSentenceLength ls ∧ avgSentenceLength ls < 15) ∨
          (25 < avgSentenceLength ls ∧ avgSentenceLength ls ≤ 35) then 0.2
  else if (5 ≤ avgSentenceLength ls ∧ avgSentenceLength ls < 10) ∨
          (35 < avgSentenceLength ls ∧ avgSentenceLength ls ≤ 50) then 0.1
  else 0

/-- `long_word_ratio` of `_score_clarity` (line 168): `0` when there are no
words. -/
def longWordRatio (f : ContentFeatures) : ℚ :=
  if f.wordCount = 0 then 0 else (f.longWordCount : ℚ) / f.wordCount

/-- `QualityScorer._score_clarity` (lines 130–182): the additive points
accumulated into `score`, capped at `1.0` by the final `min(score, 1.0)`. -/
def scoreClarity (f : ContentFeatures) : ℚ :=
  min ((if 3 ≤ f.paragraphCount then (0.2 : ℚ)
        else if 2 ≤ f.paragraphCount then 0.1 else 0) +
       sentenceBandScore f.sentenceLengths +
       (if 3 ≤ f.bulletCount ∨ 3 ≤ f.numberedCount then 0.2
        else if 1 ≤ f.bulletCount ∨ 1 ≤ f.numberedCount then 0.1 else 0) +
       (if longWordRatio f < 0.05 then 0.2
        else if longWordRatio f < 0.1 then 0.1 else 0) +
       (if 2 ≤ f.boldCount ∨ 2 ≤ f.italicCount then 0.1 else 0)) 1

/-- The age-banding of `_score_freshness` (lines 115–124). -/
def freshnessBand (daysOld : ℤ) : ℚ :=
  if daysOld ≤ 30 then 1
  else if daysOld ≤ 90 then 0.8
  else if daysOld ≤ 180 then 0.6
  else if daysOld ≤ 365 then 0.4
  else 0.2

/-- The `Z`-suffix rewriting of `_score_freshness` (lines 104–105). -/
def stripZ (s : String) : String :=
  if s.endsWith "Z" then s.dropRight 1 ++ "+00:00" else s

/-- `QualityScorer._score_freshness` (lines 95–128).  `parseDays` models the
composite `datetime.fromisoformat` + `(now - fetched_at).days` computation of
the Python standard library and the clock; `none` models the parse raising
(the `except` branch).  A missing key or falsy (empty) string short-circuits
to `0.5` before parsing, as in the source. -/
def scoreFreshness (parseDays : String → Option ℤ) (fetchedAt : Option String) : ℚ :=
  match fetchedAt with
  | none => 0.5
  | some s =>
    if s = "" then 0.5
    else
      match parseDays (stripZ s) with
      | none => 0.5
      | some d => freshnessBand d

/-- Result shape of `score_quality` (lines 47–52). -/
structure QualityMetrics where
  completeness : ℚ
  freshness : ℚ
  clarity : ℚ
  overall : ℚ

/-- `QualityScorer.score_quality` (lines 26–56): the three sub-scores, the
weighted overall score, each rounded to 2 decimals; the overall score is not
clamped. -/
def scoreQuality (cfg : QualityConfig) (parseDays : String → Option ℤ)
    (f : ContentFeatures) (fetchedAt : Option String) : QualityMetrics :=
  let c := scoreCompleteness f
  let fr := scoreFreshness parseDays fetchedAt
  let cl := scoreClarity f
  { completeness := round2 c
    freshness := round2 fr
    clarity := round2 cl
    overall := round2 (c * cfg.completeness_weight + fr * cfg.freshness_weight +
                       cl * cfg.clarity_weight) }

/-! ## Stable descending sort

Python `list.sort(key=..., reverse=True)` is a stable sort placing larger
keys first; it is modelled by insertion sort, which is extensionally equal to
any stable sort. -/

/-- Insert `x` into a descending-sorted list, after all elements with
strictly larger key and before all elements with equal or smaller key
(preserving the original order of equal keys, as Python's stable sort
does). -/
def insertDescBy {α κ : Type} [LinearOrder κ] (key : α → κ) (x : α) :
    List α → List α
  | [] => [x]
  | y :: ys => if key x < key y then y :: insertDescBy key x ys else x :: y :: ys

/-- Stable descending sort by key. -/
def sortDescBy {α κ : Type} [LinearOrder κ] (key : α → κ) (l : List α) : List α :=
  l.foldr (insertDescBy key) []

/-! ## CrossLinker (`cross_linking.py`)

The fields `find_related_documents` and its helpers read out of a document
dictionary become the fields of `CLDoc`; absent keys are modelled by their
`.get` defaults (`""`, `[]`), and `quality` is the
`intelligence.quality_metrics.overall` value (`none` when the document has no
quality metrics; a metrics dictionary without an `overall` key reads as
`some 0.5`, its `.get` default). -/

/-- Configuration of `CrossLinker.__init__` with its defaults. -/
structure CLConfig where
  max_related_documents : ℕ := 5
  topic_overlap_threshold : ℚ := 0.3
  relevance_threshold : ℚ := 0.4

/-- The document fields the CrossLinker reads. -/
structure CLDoc where
  slug : String
  title : String
  extractedTopics : List String
  metadataTopics : List String
  sourcePath : String
  fingerprint : String
  quality : Option ℚ

/-- One entry of the `find_related_documents` result list. -/
structure RelatedEntry where
  slug : String
  title : String
  relevance : ℚ
  relationship : String
deriving DecidableEq

/-- Python `str.split(sep)` for a single-character separator (keeps empty
pieces, `"" ↦ [""]`), over character lists. -/
def splitOnChar (sep : Char) : List Char → List (List Char)
  | [] => [[]]
  | c :: rest =>
    match splitOnChar sep rest with
    | [] => [[]]
    | piece :: pieces =>
      if c = sep then [] :: piece :: pieces else (c :: piece) :: pieces

/-- `path.replace("\\", "/").split("/")` of `_calculate_path_similarity`
(lines 188–189). -/
def pathParts (s : String) : List (List Char) :=
  splitOnChar '/' (s.toList.map fun c => if c = '\\' then '/' else c)

/-- The `zip` + `break` loop of `_calculate_path_similarity` (lines
192–197): number of equal leading components. -/
def countCommonLead : List (List Char) → List (List Char) → ℕ
  | p1 :: r1, p2 :: r2 => if p1 = p2 then countCommonLead r1 r2 + 1 else 0
  | _, _ => 0

/-- `CrossLinker._calculate_path_similarity` (lines 177–204). -/
def calcPathSimilarity (d1 d2 : CLDoc) : ℚ :=
  if d1.sourcePath = "" ∨ d2.sourcePath = "" then 0
  else
    let parts1 := pathParts d1.sourcePath
    let parts2 := pathParts d2.sourcePath
    let maxDepth := max parts1.length parts2.length
    if maxDepth = 0 then 0 else (countCommonLead parts1 parts2 : ℚ) / maxDepth

/-- `CrossLinker._calculate_fingerprint_similarity` (lines 206–226). -/
def calcFingerprintSimilarity (d1 d2 : CLDoc) : ℚ :=
  if d1.fingerprint = "" ∨ d2.fingerprint = "" then 0
  else if d1.fingerprint = d2.fingerprint then 1
  else
    let l1 := d1.fingerprint.toList
    let l2 := d2.fingerprint.toList
    let matchCount := (l1.zip l2).countP fun p => p.1 == p.2
    let maxLength := max l1.length l2.length
    if maxLength = 0 then 0 else (matchCount : ℚ) / maxLength

/-- `CrossLinker._calculate_quality_compatibility` (lines 228–246). -/
def calcQualityCompatibility (d1 d2 : CLDoc) : ℚ :=
  match d1.quality, d2.quality with
  | some q1, some q2 => max 0 (1 - |q1 - q2|)
  | _, _ => 0.5

/-- The combined topic set of a document: `extracted_topics` ∪ declared
`metadata.topics` (lines 38–42 and 95–98). -/
def allTopics (d : CLDoc) : Finset String :=
  d.extractedTopics.toFinset ∪ d.metadataTopics.toFinset

/-- `CrossLinker._calculate_relevance` (lines 79–119): weighted sum of topic
Jaccard overlap (0.40), path similarity (0.20), fingerprint similarity
(0.25) and quality compatibility (0.15), clamped to at most 1. -/
def calcRelevance (d1 d2 : CLDoc) (targetTopics : Finset String) : ℚ :=
  let topicPart : ℚ :=
    if targetTopics.Nonempty ∧ (allTopics d2).Nonempty then
      (if 0 < (targetTopics ∪ allTopics d2).card then
        ((targetTopics ∩ allTopics d2).card : ℚ) / (targetTopics ∪ allTopics d2).card
      else 0) * 0.4
    else 0
  min (topicPart + calcPathSimilarity d1 d2 * 0.2 +
       calcFingerprintSimilarity d1 d2 * 0.25 +
       calcQualityCompatibility d1 d2 * 0.15) 1

/-- Python `path.rsplit("/", 1)[0]`: everything before the last `/`, or the
whole string when it contains no `/` (lines 139 and 141). -/
def parentDir (s : String) : String :=
  let parts := splitOnChar '/' s.toList
  if parts.length ≤ 1 then s
  else String.mk ((parts.dropLast.intersperse ['/']).flatten)

/-- Python `str.startswith`. -/
def strStartsWith (s pre : String) : Bool :=
  go s.toList pre.toList
where
  go : List Char → List Char → Bool
    | _, [] => true
    | [], _ :: _ => false
    | a :: s', b :: p' => a == b && go s' p'

/-- `CrossLinker._determine_relationship_type` (lines 121–175), first match
wins; the hierarchical checks use the raw `metadata.source.path` values
(no backslash replacement there). -/
def determineRelationshipType (d1 d2 : CLDoc) (relevance : ℚ) : String :=
  if d1.sourcePath ≠ "" ∧ d2.sourcePath ≠ "" ∧
     strStartsWith d2.sourcePath (parentDir d1.sourcePath) then "sibling"
  else if d1.sourcePath ≠ "" ∧ d2.sourcePath ≠ "" ∧
     strStartsWith d1.sourcePath (parentDir d2.sourcePath) then "parent-child"
  else if d1.extractedTopics.toFinset.Nonempty ∧ d2.extractedTopics.toFinset.Nonempty ∧
     0.6 < ((d1.extractedTopics.toFinset ∩ d2.extractedTopics.toFinset).card : ℚ) /
           ((d1.extractedTopics.toFinset ∪ d2.extractedTopics.toFinset).card) then
    "related-content"
  else if (d1.extractedTopics.any fun t =>
            t == "implementation" || t == "example" || t == "tutorial") &&
          (d2.extractedTopics.any fun t =>
            t == "concept" || t == "overview" || t == "introduction") then
    "implementation-detail"
  else if 0.8 < relevance then "highly-related"
  else if 0.6 < relevance then "related"
  else "tangentially-related"

/-- `CrossLinker.find_related_documents` (lines 24–77): skip the target's own
slug, keep candidates whose relevance reaches the threshold, store the
3-decimal rounded relevance and the relationship type, sort
relevance-descending (stable), truncate to `max_related_documents`. -/
def findRelatedDocuments (cfg : CLConfig) (target : CLDoc) (docs : List CLDoc) :
    List RelatedEntry :=
  let targetTopics := allTopics target
  let related := docs.filterMap fun doc =>
    if doc.slug = target.slug then none
    else
      let r := calcRelevance target doc targetTopics
      if cfg.relevance_threshold ≤ r then
        some ⟨doc.slug, doc.title, round3 r, determineRelationshipType target doc r⟩
      else none
  (sortDescBy (·.relevance) related).take cfg.max_related_documents

/-! ## TopicExtractor (`topic_extraction.py`)

Tokenization is performed in the source by Python's `re` module on `str`
values; it is modelled here character-exactly over `List Char` for the ASCII
fragment (`\w` = ASCII alphanumeric or `_`, `\s` = ASCII whitespace,
`str.lower` = `Char.toLower`; Python's Unicode-aware behaviour beyond ASCII
is outside the model).  The multi-regex cleanup pass
`_clean_content_for_analysis` (code fences, inline code, links, markdown and
HTML stripping, lines 256–274) enters as the `cleanContent` parameter at its
single call site. -/

/-- The stop-word set of `TopicExtractor.__init__` (lines 26–134), in source
order (including the duplicated `"her"`). -/
def teStopWords : List String :=
  ["the", "a", "an", "and", "or", "but", "in", "on", "at", "to", "for", "of",
   "with", "by", "from", "up", "about", "into", "through", "during", "before",
   "after", "above", "below", "between", "among", "against", "is", "are",
   "was", "were", "be", "been", "being", "have", "has", "had", "do", "does",
   "did", "will", "would", "could", "should", "may", "might", "must", "can",
   "this", "that", "these", "those", "i", "you", "he", "she", "it", "we",
   "they", "me", "him", "her", "us", "them", "my", "your", "his", "her",
   "its", "our", "their", "all", "any", "both", "each", "few", "more",
   "most", "other", "some", "such", "no", "nor", "not", "only", "own",
   "same", "so", "than", "too", "very", "just", "now", "here", "there",
   "when", "where", "why", "how", "what", "which", "who", "whom", "whose",
   "if", "then", "else"]

/-- Python regex `\w` (ASCII fragment). -/
def isWordChar (c : Char) : Bool := c.isAlphanum || c = '_'

/-- Python `str.lower`, character-wise. -/
def pyLower (l : List Char) : List Char := l.map Char.toLower

/-- Pack a token back into a `String`. -/
def tokenOf (cs : List Char) : String := String.mk cs

/-- Python `re.split` on a character-class-run pattern (`[-_\s]+` style):
split at each maximal run of separator characters, keeping empty pieces at
the ends. -/
def splitRuns (p : Char → Bool) : List Char → List (List Char)
  | [] => [[]]
  | c :: rest =>
    match splitRuns p rest with
    | [] => [[]]
    | piece :: pieces =>
      if p c then
        match rest with
        | [] => [] :: piece :: pieces
        | d :: _ => if p d then piece :: pieces else [] :: piece :: pieces
      else (c :: piece) :: pieces

/-- Python `str.split()` (split on whitespace runs, dropping empties). -/
def pySplit (l : List Char) : List (List Char) :=
  (splitRuns Char.isWhitespace l).filter fun r => !r.isEmpty

/-- Python `re.findall(r"\b[a-zA-Z]{3,}\b", s)`: the word boundaries force a
match to be a whole maximal `\w`-run, so the matches are exactly the maximal
`\w`-runs that are entirely alphabetic and at least 3 characters long. -/
def wordTokens (l : List Char) : List (List Char) :=
  (splitRuns (fun c => !isWordChar c) l).filter fun r =>
    decide (3 ≤ r.length) && r.all Char.isAlpha

/-- Whether the first list starts with the second. -/
def listStartsWith : List Char → List Char → Bool
  | _, [] => true
  | [], _ :: _ => false
  | a :: s, b :: p => a == b && listStartsWith s p

/-- Left-to-right non-overlapping scan of `countSubstr`, fuelled by the
haystack length so the recursion is structural (the fuel never runs out:
each step consumes at least one haystack character). -/
def countSubstrAux : ℕ → List Char → List Char → ℕ
  | 0, _, _ => 0
  | _ + 1, [], _ => 0
  | fuel + 1, c :: rest, sub =>
    if listStartsWith (c :: rest) sub then
      1 + countSubstrAux fuel ((c :: rest).drop sub.length) sub
    else countSubstrAux fuel rest sub

/-- Python `str.count`: number of non-overlapping occurrences scanned from
the left; `len + 1` for the empty needle. -/
def countSubstr (hay sub : List Char) : ℕ :=
  if sub.isEmpty then hay.length + 1 else countSubstrAux hay.length hay sub

/-- Deduplication keeping first occurrences (a deterministic stand-in for the
iteration order of a Python `set`, which is hash-dependent; only tie-breaking
among equal scores depends on it downstream). -/
def dedupFirstAux {α : Type} [BEq α] (seen : List α) : List α → List α
  | [] => []
  | a :: rest =>
    if seen.contains a then dedupFirstAux seen rest
    else a :: dedupFirstAux (a :: seen) rest

/-- Deduplication keeping first occurrences. -/
def dedupFirst {α : Type} [BEq α] (l : List α) : List α := dedupFirstAux [] l

/-- Configuration of `TopicExtractor.__init__` with its defaults. -/
structure TEConfig where
  max_topics : ℕ := 10
  min_frequency : ℕ := 2

/-- `re.sub(r"\.[^.]+$", "", part)` of `_extract_from_path` (line 190):
remove a final dot-suffix when it has at least one non-dot character. -/
def stripExtension (part : List Char) : List Char :=
  let parts := splitOnChar '.' part
  match parts.getLast? with
  | none => part
  | some lastPiece =>
    if 2 ≤ parts.length ∧ lastPiece ≠ [] then
      (parts.dropLast.intersperse ['.']).flatten
    else part

/-- `TopicExtractor._extract_from_path` (lines 178–199). -/
def extractFromPath (path : String) : List String :=
  if path = "" then []
  else
    (pathParts path).flatMap fun part =>
      let words := splitRuns (fun c => c = '-' || c = '_' || c.isWhitespace)
        (pyLower (stripExtension part))
      (words.filter fun w =>
        decide (2 < w.length) && !teStopWords.contains (tokenOf w)).map tokenOf

/-- The captures of `re.findall(r"^#+\s+(.+)$", content, re.MULTILINE)`
(lines 206–207): per line, at least one `#`, then at least one whitespace
character, then a non-empty remainder; the capture is the remainder after
the greedy `\s+` (when the remainder is all whitespace the Python capture
retains one whitespace character where the model returns `[]`; both
tokenize to nothing and contain no topic substring, so they are
interchangeable downstream). -/
def headingCaptures (content : String) : List (List Char) :=
  (splitOnChar '\n' content.toList).filterMap fun line =>
    let rest := line.dropWhile (· = '#')
    if !(line.takeWhile (· = '#')).isEmpty &&
       (match rest with | c :: _ => c.isWhitespace | [] => false) &&
       decide (2 ≤ rest.length) then
      some (rest.dropWhile Char.isWhitespace)
    else none

/-- `TopicExtractor._extract_from_headings` (lines 201–218): lower-case each
heading, replace every character outside `[\w\s-]` by a space, whitespace
split, keep tokens longer than 2 that are not stop words. -/
def extractFromHeadings (content : String) : List String :=
  (headingCaptures content).flatMap fun heading =>
    let cleaned := (pyLower heading).map fun c =>
      if !isWordChar c && !c.isWhitespace && c ≠ '-' then ' ' else c
    ((pySplit cleaned).filter fun w =>
      decide (2 < w.length) && !teStopWords.contains (tokenOf w)).map tokenOf

/-- `TopicExtractor._extract_from_keywords` (lines 220–237): tokenize the
cleaned, lower-cased content, drop stop words, keep the words whose
frequency reaches `min_frequency` (in first-occurrence order, as a Python
`Counter` preserves). -/
def extractFromKeywords (minFreq : ℕ) (cleanContent : String → String)
    (content : String) : List String :=
  let words := wordTokens (pyLower (cleanContent content).toList)
  let filtered := words.filter fun w => !teStopWords.contains (tokenOf w)
  ((dedupFirst filtered).filter fun w =>
    decide (minFreq ≤ filtered.count w)).map tokenOf

/-- `TopicExtractor._extract_from_metadata` (lines 239–254): declared topics
verbatim, then title tokens (3+ letters, lower-cased, stop words
removed). -/
def extractFromMetadata (metaTopics : List String) (title : String) :
    List String :=
  metaTopics ++
    ((wordTokens (pyLower title.toList)).filter fun w =>
      !teStopWords.contains (tokenOf w)).map tokenOf

/-- `TopicExtractor._appears_in_headings` (lines 302–311): case-insensitive
substring test against each heading capture. -/
def appearsInHeadings (topic : String) (content : String) : Bool :=
  (headingCaptures content).any fun h =>
    decide (0 < countSubstr (pyLower h) (pyLower topic.toList))

/-- The score of `_filter_and_rank_topics` (lines 285–295):
case-insensitive substring frequency in the raw content × heading boost
(2 or 1) × length boost (`min(len/5, 2)`). -/
def topicScore (topic : String) (content : String) : ℚ :=
  (countSubstr (pyLower content.toList) (pyLower topic.toList) : ℚ) *
    (if appearsInHeadings topic content then 2 else 1) *
    min ((topic.length : ℚ) / 5) 2

/-- `TopicExtractor._filter_and_rank_topics` (lines 276–300): deduplicate,
score, sort score-descending (stable), drop non-positive scores. -/
def filterAndRankTopics (candidates : List String) (content : String) :
    List String :=
  if candidates = [] then []
  else
    ((sortDescBy (·.2)
        ((dedupFirst candidates).map fun t => (t, topicScore t content))).filter
      fun p => decide (0 < p.2)).map (·.1)

/-- `TopicExtractor.extract_topics` (lines 136–176): union of the four
candidate sources, ranked and bounded to `max_topics`. -/
def extractTopics (cfg : TEConfig) (cleanContent : String → String)
    (content : String) (metaTopics : List String) (title : String)
    (sourcePath : String) : List String :=
  let candidates := dedupFirst
    (extractFromPath sourcePath ++ extractFromHeadings content ++
     extractFromKeywords cfg.min_frequency cleanContent content ++
     extractFromMetadata metaTopics title)
  (filterAndRankTopics candidates content).take cfg.max_topics

/-! ## SimilarityAnalyzer (`similarity.py`)

Python floats are modelled by exact reals (`ℝ`), so the similarity
definitions are noncomputable; concrete instances are evaluated in proofs.
`_generate_content_vector` (lines 117–188) — the regex cleanup, 3+-letter
tokenization, stop-word filter and `Counter` construction — enters as the
`vecOf : String → WordVec` parameter at its single call site (line 57);
`WordVec` carries the two invariants every `Counter` built from a token list
has: distinct keys and positive counts. -/

/-- A word-frequency vector: the model of a Python `Counter` built from a
list of tokens (distinct keys, positive counts). -/
structure WordVec where
  entries : List (String × ℕ)
  nodupKeys : (entries.map Prod.fst).Nodup
  posCounts : ∀ p ∈ entries, 0 < p.2

/-- Key lookup in an association list (`vector[word]`), `0` when absent. -/
def lookupCount (entries : List (String × ℕ)) (w : String) : ℕ :=
  ((entries.find? fun q => q.1 == w).map (·.2)).getD 0

/-- `vector[word]`. -/
def WordVec.cnt (v : WordVec) (w : String) : ℕ := lookupCount v.entries w

/-- `set(vector.keys())`. -/
def WordVec.keys (v : WordVec) : Finset String :=
  (v.entries.map Prod.fst).toFinset

/-- The dot product of `_calculate_similarity` (line 230): sum over the
intersection of the key sets. -/
def vecDot (v1 v2 : WordVec) : ℕ :=
  ∑ w ∈ v1.keys ∩ v2.keys, v1.cnt w * v2.cnt w

/-- The squared magnitude of `_calculate_similarity` (lines 233–234):
`sum(count**2 for count in vector.values())`; the magnitude is its square
root. -/
def magSq (v : WordVec) : ℕ := (v.entries.map fun p => p.2 * p.2).sum

/-- `SimilarityAnalyzer._calculate_similarity` (lines 210–242): 0 for an
empty vector, empty key intersection or zero magnitude, else the cosine
`dot / (‖v1‖·‖v2‖)` clamped into `[0, 1]`.

This is an exact-real idealization of the source's IEEE-754 binary64
arithmetic (`** 0.5` and `/`): in the program a two-word unit-count vector's
self-similarity evaluates to `0.9999999999999998`, not `1.0`, because
`fl(fl(√2)·fl(√2)) = 2.0000000000000004`.  Exact-equality facts about this
function (such as `calcSimilarity_self` below) therefore hold only in the
idealization; the structural theorems about `find_similar_documents` compare
the same idealized value on both sides of each threshold, and their concrete
instances use values the float program computes exactly. -/
noncomputable def calcSimilarity (v1 v2 : WordVec) : ℝ :=
  if v1.entries = [] ∨ v2.entries = [] then 0
  else if v1.keys ∩ v2.keys = ∅ then 0
  else if Real.sqrt (magSq v1) = 0 ∨ Real.sqrt (magSq v2) = 0 then 0
  else max 0 (min 1 ((vecDot v1 v2 : ℝ) /
    (Real.sqrt (magSq v1) * Real.sqrt (magSq v2))))

/-- Model of Python `round(x, 3)` over exact reals. -/
noncomputable def round3R (x : ℝ) : ℝ := (round (x * 1000) : ℤ) / 1000

/-- The document fields `find_similar_documents` reads. -/
structure SimDoc where
  slug : String
  title : String
  content : String

/-- One entry of a per-document similarity list (lines 79–86). -/
structure SimEntry where
  slug : String
  title : String
  similarity : ℝ
  relationship : String

/-- Configuration of `SimilarityAnalyzer.__init__` with its defaults. -/
structure SimConfig where
  similarity_threshold : ℝ := 0.8
  duplicate_threshold : ℝ := 0.95

/-- The `doc_vectors` dictionary keyed by slug (lines 55–58): built by
iterating the documents in order, a later document overwriting an earlier
one with the same slug; looking up a slug no document has cannot happen in
`find_similar_documents` (every looked-up slug was inserted), so that case
carries an arbitrary junk vector. -/
def docVector (vecOf : String → WordVec) (docs : List SimDoc)
    (slug : String) : WordVec :=
  match (docs.filter fun d => d.slug == slug).getLast? with
  | some d => vecOf d.content
  | none => vecOf ""

/-- The inner loop of `find_similar_documents` (lines 64–86) for one source
document: an entry per later document whose similarity reaches the
threshold, labelled `"duplicate"` when it also reaches the duplicate
threshold and `"similar"` otherwise. -/
noncomputable def simEntriesFor (cfg : SimConfig) (vec : String → WordVec)
    (doc1 : SimDoc) (later : List SimDoc) : List SimEntry :=
  later.filterMap fun doc2 =>
    if calcSimilarity (vec doc1.slug) (vec doc2.slug) ≥ cfg.similarity_threshold then
      some ⟨doc2.slug, doc2.title,
            round3R (calcSimilarity (vec doc1.slug) (vec doc2.slug)),
            if calcSimilarity (vec doc1.slug) (vec doc2.slug) ≥
                cfg.duplicate_threshold then "duplicate" else "similar"⟩
    else none

/-- The outer loop of `find_similar_documents` (lines 61–91): document `i`
is compared against documents `j > i` only (the `i >= j` skip on line 65),
and a key is inserted only when its entry list is non-empty, sorted
similarity-descending (Python's stable sort). -/
noncomputable def similarityPairsLoop (cfg : SimConfig)
    (vec : String → WordVec) : List SimDoc → List (String × List SimEntry)
  | [] => []
  | d :: rest =>
    (match simEntriesFor cfg vec d rest with
     | [] => []
     | e :: es => [(d.slug, sortDescBy (·.similarity) (e :: es))]) ++
      similarityPairsLoop cfg vec rest

/-- `SimilarityAnalyzer.find_similar_documents` (lines 41–99): the
`similarities` dictionary as an association list in insertion order (keys
are distinct when slugs are, matching the Python dict). -/
noncomputable def findSimilarDocuments (cfg : SimConfig)
    (vecOf : String → WordVec) (docs : List SimDoc) :
    List (String × List SimEntry) :=
  similarityPairsLoop cfg (docVector vecOf docs) docs

/-- A one-word `Counter` (`Counter(["apple"])`), used as a concrete vector
in evaluations. -/
def singleWordVec : WordVec := ⟨[("apple", 1)], by decide, by decide⟩

/-! ## Theorems -/

theorem round2_mono {x y : ℚ} (h : x ≤ y) : round2 x ≤ round2 y := by
  have : round (x * 100) ≤ round (y * 100) := by
    rw [round_eq, round_eq]
    exact Int.floor_le_floor (by linarith)
  unfold round2
  exact div_le_div_of_nonneg_right (by exact_mod_cast this) (by norm_num)

theorem round2_zero : round2 0 = 0 := by
  unfold round2; norm_num

theorem round2_one : round2 1 = 1 := by
  unfold round2; norm_num


theorem scoreCompleteness_nonneg (f : ContentFeatures) : 0 ≤ scoreCompleteness f := by
  unfold scoreCompleteness
  refine le_min ?_ (by norm_num)
  split_ifs <;> norm_num

theorem scoreCompleteness_le_one (f : ContentFeatures) : scoreCompleteness f ≤ 1 :=
  min_le_right _ _

theorem sentenceBandScore_nonneg (ls : List ℕ) : 0 ≤ sentenceBandScore ls := by
  unfold sentenceBandScore
  split_ifs <;> norm_num

theorem sentenceBandScore_le (ls : List ℕ) : sentenceBandScore ls ≤ 0.3 := by
  unfold sentenceBandScore
  split_ifs <;> norm_num

theorem scoreClarity_nonneg (f : ContentFeatures) : 0 ≤ scoreClarity f := by
  unfold scoreClarity
  refine le_min ?_ (by norm_num)
  have h1 := sentenceBandScore_nonneg f.sentenceLengths
  split_ifs <;> linarith

theorem scoreClarity_le_one (f : ContentFeatures) : scoreClarity f ≤ 1 :=
  min_le_right _ _

theorem freshnessBand_mem (d : ℤ) :
    freshnessBand d = 1 ∨ freshnessBand d = 0.8 ∨ freshnessBand d = 0.6 ∨
    freshnessBand d = 0.4 ∨ freshnessBand d = 0.2 := by
  unfold freshnessBand
  split_ifs <;> norm_num

theorem scoreFreshness_nonneg (p : String → Option ℤ) (t : Option String) :
    0 ≤ scoreFreshness p t := by
  unfold scoreFreshness
  rcases t with _ | s
  · norm_num
  · simp only
    split_ifs
    · norm_num
    · rcases p (stripZ s) with _ | d
      · norm_num
      · simp only
        rcases freshnessBand_mem d with h | h | h | h | h <;> rw [h] <;> norm_num

theorem scoreFreshness_le_one (p : String → Option ℤ) (t : Option String) :
    scoreFreshness p t ≤ 1 := by
  unfold scoreFreshness
  rcases t with _ | s
  · norm_num
  · simp only
    split_ifs
    · norm_num
    · rcases p (stripZ s) with _ | d
      · norm_num
      · simp only
        rcases freshnessBand_mem d with h | h | h | h | h <;> rw [h] <;> norm_num

/-- C8: `QualityScorer._score_freshness` maps the age of `metadata.fetched_at`
into the bands 1.0 (≤ 30 days), 0.8 (≤ 90), 0.6 (≤ 180), 0.4 (≤ 365), else
0.2 — in particular a timestamp exactly 200 days old scores 0.4 — and for any
missing or unparsable timestamp it returns 0.5 with no exception propagating
(the embedding is total, and parse failure is the `none` branch). -/
theorem score_freshness_bands (parse : String → Option ℤ) (s : String) (d : ℤ)
    (hs : s ≠ "") :
    scoreFreshness parse none = 0.5 ∧
    scoreFreshness parse (some "") = 0.5 ∧
    (parse (stripZ s) = none → scoreFreshness parse (some s) = 0.5) ∧
    (parse (stripZ s) = some d →
      scoreFreshness parse (some s) =
        if d ≤ 30 then 1 else if d ≤ 90 then 0.8 else if d ≤ 180 then 0.6
        else if d ≤ 365 then 0.4 else 0.2) ∧
    (parse (stripZ s) = some 200 → scoreFreshness parse (some s) = 0.4) := by
  refine ⟨rfl, rfl, ?_, ?_, ?_⟩
  · intro hp
    simp [scoreFreshness, hs, hp]
  · intro hp
    simp [scoreFreshness, hs, hp, freshnessBand]
  · intro hp
    simp [scoreFreshness, hs, hp, freshnessBand]

/-- Witness for `score_freshness_bands` at a concrete parser and a timestamp
whose parsed age is exactly 200 days. -/
theorem score_freshness_bands_witness :
    scoreFreshness (fun _ => some 200) (some "2025-03-26T00:00:00Z") = 0.4 :=
  (score_freshness_bands (fun _ => some 200)
      "2025-03-26T00:00:00Z" 200 (by decide)).2.2.2.2 rfl

/-- C10: `QualityScorer.score_quality` caps completeness and clarity
individually at 1.0 but never clamps the overall score: it returns
`overall = round2 (completeness·w_c + freshness·w_f + clarity·w_l)`; with
nonnegative weights summing to at most 1 the overall score stays in `[0,1]`,
while for some weight configuration summing above 1 there is an input whose
overall score exceeds 1. -/
theorem score_quality_overall_unclamped (cfg : QualityConfig)
    (parse : String → Option ℤ) (f : ContentFeatures) (ts : Option String) :
    scoreCompleteness f ≤ 1 ∧ scoreClarity f ≤ 1 ∧
    (scoreQuality cfg parse f ts).overall =
      round2 (scoreCompleteness f * cfg.completeness_weight +
              scoreFreshness parse ts * cfg.freshness_weight +
              scoreClarity f * cfg.clarity_weight) ∧
    (0 ≤ cfg.completeness_weight → 0 ≤ cfg.freshness_weight →
     0 ≤ cfg.clarity_weight →
     cfg.completeness_weight + cfg.freshness_weight + cfg.clarity_weight ≤ 1 →
      0 ≤ (scoreQuality cfg parse f ts).overall ∧
      (scoreQuality cfg parse f ts).overall ≤ 1) ∧
    (∃ (cfg' : QualityConfig) (f' : ContentFeatures)
       (parse' : String → Option ℤ) (ts' : Option String),
      1 < cfg'.completeness_weight + cfg'.freshness_weight + cfg'.clarity_weight ∧
      1 < (scoreQuality cfg' parse' f' ts').overall) := by
  refine ⟨scoreCompleteness_le_one f, scoreClarity_le_one f, rfl, ?_, ?_⟩
  · intro hc hf hl hsum
    have h1 := scoreCompleteness_nonneg f
    have h2 := scoreCompleteness_le_one f
    have h3 := scoreFreshness_nonneg parse ts
    have h4 := scoreFreshness_le_one parse ts
    have h5 := scoreClarity_nonneg f
    have h6 := scoreClarity_le_one f
    have hS0 : 0 ≤ scoreCompleteness f * cfg.completeness_weight +
        scoreFreshness parse ts * cfg.freshness_weight +
        scoreClarity f * cfg.clarity_weight := by positivity
    have hS1 : scoreCompleteness f * cfg.completeness_weight +
        scoreFreshness parse ts * cfg.freshness_weight +
        scoreClarity f * cfg.clarity_weight ≤ 1 := by nlinarith
    constructor
    · have := round2_mono hS0
      rw [round2_zero] at this
      exact this
    · have := round2_mono hS1
      rw [round2_one] at this
      exact this
  · refine ⟨⟨0.4, 0.4, 0.4⟩, ⟨true, 2, 150, 1, 0, 2, 3, [20, 20, 20], 3, 0, 0, 2, 0⟩,
      fun _ => some 0, some "t", by norm_num, ?_⟩
    have ht : ("t" : String) ≠ "" := by decide
    have hl : ([20, 20, 20] : List ℕ) ≠ [] := by decide
    norm_num [scoreQuality, scoreCompleteness, scoreClarity, scoreFreshness,
      freshnessBand, sentenceBandScore, avgSentenceLength, longWordRatio,
      round2, round_eq, ht, hl]

/-- Witness for `score_quality_overall_unclamped` at the default weights and a
concrete feature vector. -/
theorem score_quality_overall_witness :
    0 ≤ (scoreQuality ⟨0.4, 0.3, 0.3⟩ (fun _ => some 0)
          ⟨true, 2, 150, 1, 0, 2, 3, [20, 20, 20], 3, 0, 0, 2, 0⟩ (some "t")).overall ∧
    (scoreQuality ⟨0.4, 0.3, 0.3⟩ (fun _ => some 0)
          ⟨true, 2, 150, 1, 0, 2, 3, [20, 20, 20], 3, 0, 0, 2, 0⟩ (some "t")).overall ≤ 1 :=
  (score_quality_overall_unclamped ⟨0.4, 0.3, 0.3⟩ (fun _ => some 0)
      ⟨true, 2, 150, 1, 0, 2, 3, [20, 20, 20], 3, 0, 0, 2, 0⟩ (some "t")).2.2.2.1
    (by norm_num) (by norm_num) (by norm_num) (by norm_num)

/-- C5: in incremental mode `_filter_files_for_analysis` excludes a path
exactly when the stored state hash equals the hash of its current content —
`[]` for `[P]` when they match, `[P]` when they differ or no prior state
exists — and a hash-computation failure includes the document; in general
the output is the input filtered by this per-file test. -/
theorem filter_files_incremental (st : String → Option String)
    (rh : String → Except Unit String) (P : String) (h : String) :
    (rh P = .ok h → st P = some h → filterFilesForAnalysis st rh [P] true = []) ∧
    (rh P = .ok h → st P ≠ some h → filterFilesForAnalysis st rh [P] true = [P]) ∧
    (rh P = .error () → filterFilesForAnalysis st rh [P] true = [P]) ∧
    (∀ files : List String,
      filterFilesForAnalysis st rh files true = files.filter (needsAnalysis st rh)) := by
  refine ⟨?_, ?_, ?_, fun files => by simp [filterFilesForAnalysis]⟩
  · intro hr hs
    simp [filterFilesForAnalysis, needsAnalysis, hr, hs]
  · intro hr hs
    have : (st P == some h) = false := beq_eq_false_iff_ne.mpr hs
    simp [filterFilesForAnalysis, needsAnalysis, hr, this]
  · intro hr
    simp [filterFilesForAnalysis, needsAnalysis, hr]

/-- Witness for `filter_files_incremental`: a matching hash is excluded, a
fresh path (no prior state, hashing fails so it is conservatively kept) is
included. -/
theorem filter_files_incremental_witness :
    filterFilesForAnalysis (fun p => if p = "a.mdc" then some "h1" else none)
      (fun p => if p = "a.mdc" then .ok "h1" else .error ()) ["a.mdc"] true = [] ∧
    filterFilesForAnalysis (fun p => if p = "a.mdc" then some "h1" else none)
      (fun p => if p = "a.mdc" then .ok "h1" else .error ()) ["b.mdc"] true = ["b.mdc"] :=
  ⟨(filter_files_incremental _ _ "a.mdc" "h1").1 rfl rfl,
   (filter_files_incremental _ _ "b.mdc" "h1").2.2.1 rfl⟩

/-- C3 counterexample: the persisted state is rebuilt from scratch out of the
files the current run analyzed, so a path successfully analyzed in run 1 but
unchanged (hence filtered out) in run 2 is absent from the state after run 2
— refuting "present iff successfully analyzed in some prior run". -/
theorem analysis_state_counterexample :
    ("a", "h1") ∈ analysisStateAfterRun (fun _ => none)
        (fun p => if p = "a" then .ok "h1" else if p = "b" then .ok "h2" else .error ())
        ["a", "b"] true ∧
    lookupState
      (analysisStateAfterRun
        (lookupState (analysisStateAfterRun (fun _ => none)
          (fun p => if p = "a" then .ok "h1" else if p = "b" then .ok "h2" else .error ())
          ["a", "b"] true))
        (fun p => if p = "a" then .ok "h1" else if p = "b" then .ok "h3" else .error ())
        ["a", "b"] true)
      "a" = none := by
  constructor
  · simp [analysisStateAfterRun, saveAnalysisState, filterFilesForAnalysis, needsAnalysis]
  · rfl

/-- C3 amended: after a run, a binding `(p, h)` is in the persisted state iff
`p` was in that run's `files_to_analyze` and re-hashing `p` at save time gave
`h` (regardless of per-document analysis success); and when hashing succeeds,
`p` is excluded from an incremental run's `files_to_analyze` iff it is absent
from the collection or its stored hash equals the current content hash. -/
theorem analysis_state_after_run (st : String → Option String)
    (rh : String → Except Unit String) (files : List String) (inc : Bool)
    (p h : String) :
    ((p, h) ∈ analysisStateAfterRun st rh files inc ↔
      p ∈ filterFilesForAnalysis st rh files inc ∧ rh p = .ok h) ∧
    (rh p = .ok h →
      (p ∉ filterFilesForAnalysis st rh files true ↔ p ∉ files ∨ st p = some h)) := by
  constructor
  · unfold analysisStateAfterRun saveAnalysisState
    rw [List.mem_filterMap]
    constructor
    · rintro ⟨q, hq, hmatch⟩
      rcases hrq : rh q with _ | hq2
      · rw [hrq] at hmatch; simp at hmatch
      · rw [hrq] at hmatch
        simp only [Option.some.injEq, Prod.mk.injEq] at hmatch
        obtain ⟨rfl, rfl⟩ := hmatch
        exact ⟨hq, hrq⟩
    · rintro ⟨hp, hrp⟩
      exact ⟨p, hp, by rw [hrp]⟩
  · intro hrp
    unfold filterFilesForAnalysis
    simp only [Bool.not_true, Bool.false_eq_true, if_false, List.mem_filter,
      not_and, needsAnalysis]
    rw [hrp]
    constructor
    · intro hx
      by_cases hpf : p ∈ files
      · right
        have := hx hpf
        simp only [Bool.not_eq_true', Bool.not_eq_false] at this
        exact eq_of_beq this
      · exact Or.inl hpf
    · rintro (hpf | hst)
      · intro hc; exact absurd hc hpf
      · intro _
        simp [hst]

/-- Witness for `analysis_state_after_run`: a concrete binding is in the
state after a run exactly as characterized. -/
theorem analysis_state_after_run_witness :
    ("a", "h1") ∈ analysisStateAfterRun (fun _ => none) (fun _ => .ok "h1")
        ["a"] true ∧
    ("a" ∉ filterFilesForAnalysis (fun _ => some "h1") (fun _ => .ok "h1")
        ["a"] true ↔ "a" ∉ ["a"] ∨ (fun _ => some "h1") "a" = some "h1") :=
  ⟨((analysis_state_after_run (fun _ => none) (fun _ => .ok "h1") ["a"] true
      "a" "h1").1).mpr ⟨by simp [filterFilesForAnalysis, needsAnalysis], rfl⟩,
   (analysis_state_after_run (fun _ => some "h1") (fun _ => .ok "h1") ["a"] true
      "a" "h1").2 rfl⟩

theorem length_filterMap_add_countP_none {α β : Type} (g : α → Option β)
    (l : List α) :
    (l.filterMap g).length + l.countP (fun a => (g a).isNone) = l.length := by
  induction l with
  | nil => simp
  | cons a l ih =>
    cases hg : g a <;>
      simp [List.filterMap_cons, hg, List.countP_cons, ← ih] <;> omega

/-- C4 counterexample: a per-document failure (modelled by
`_analyze_document` returning `None`, its behaviour on any caught exception)
is counted in `skipped`, not in `errors` — `errors` stays 0 — refuting
"per-document failures are counted in the errors counter". -/
theorem analyze_per_document_failure_counterexample :
    analyze (δ := Unit)
      ⟨fun _ => .ok "h", fun _ => none, fun ds => .ok ds, fun _ => .ok ()⟩
      (fun _ => none)
      ["topic-extraction", "cross-linking", "quality-scoring", "duplicate-detection"]
      ["a.mdc"] true = .summary 0 0 1 0 := rfl

/-- C4 amended: `analyze` is a total function of its inputs (no exception
propagates in the model, where every fallible collaborator is an explicit
`Except`/`Option`); it returns the structured error result exactly for an
empty collection, and otherwise a summary in which `processed` counts the
per-document successes, `skipped` counts the per-document failures (which
are caught inside `_analyze_document`, not added to `errors`), and `errors`
counts one for a cross-document-phase failure plus one per write-back
failure, the run continuing in each case. -/
theorem analyze_error_handling {δ : Type} (ops : AnalyzeOps δ)
    (st : String → Option String) (features files : List String) (inc : Bool)
    (hne : files ≠ []) :
    (∀ fs : List String,
      (analyze ops st features fs inc = .collectionError ↔ fs = [])) ∧
    analyze ops st features files inc =
      .summary
        (phase1Docs ops st files inc).length
        ((writebackDocs ops features (phase1Docs ops st files inc)).length -
          writeFailureCount ops (writebackDocs ops features (phase1Docs ops st files inc)))
        ((filterFilesForAnalysis st ops.readHash files inc).countP
          (fun f => (ops.analyzeDocument f).isNone))
        (phase2ErrorCount ops features (phase1Docs ops st files inc) +
          writeFailureCount ops (writebackDocs ops features (phase1Docs ops st files inc))) := by
  constructor
  · intro fs
    constructor
    · intro hres
      by_contra hfs
      simp only [analyze, if_neg hfs] at hres
      exact AnalyzeResult.noConfusion hres
    · intro h
      subst h
      rfl
  · simp only [analyze, if_neg hne, phase1Docs]
    congr 1
    have := length_filterMap_add_countP_none ops.analyzeDocument
      (filterFilesForAnalysis st ops.readHash files inc)
    omega

/-- Witness for `analyze_error_handling`: one document, Phase 2 enabled and
failing — the run still returns a summary, with the single phase error
counted. -/
theorem analyze_error_handling_witness :
    analyze (δ := Unit)
      ⟨fun _ => .ok "h", fun _ => some (), fun _ => .error (), fun _ => .ok ()⟩
      (fun _ => none) ["cross-linking"] ["a.mdc"] true = .summary 1 1 0 1 :=
  ((analyze_error_handling
      ⟨fun _ => .ok "h", fun _ => some (), fun _ => .error (), fun _ => .ok ()⟩
      (fun _ => none) ["cross-linking"] ["a.mdc"] true (by decide)).2).trans rfl

theorem insertDescBy_perm {α κ : Type} [LinearOrder κ] (key : α → κ) (x : α)
    (l : List α) : (insertDescBy key x l).Perm (x :: l) := by
  induction l with
  | nil => rfl
  | cons y ys ih =>
    unfold insertDescBy
    by_cases h : key x < key y
    · rw [if_pos h]
      exact (ih.cons y).trans (List.Perm.swap x y ys)
    · rw [if_neg h]

theorem mem_insertDescBy {α κ : Type} [LinearOrder κ] (key : α → κ) (x a : α)
    (l : List α) : a ∈ insertDescBy key x l ↔ a = x ∨ a ∈ l := by
  rw [(insertDescBy_perm key x l).mem_iff, List.mem_cons]

theorem insertDescBy_pairwise {α κ : Type} [LinearOrder κ] (key : α → κ) (x : α)
    (l : List α) (h : l.Pairwise fun a b => key b ≤ key a) :
    (insertDescBy key x l).Pairwise fun a b => key b ≤ key a := by
  induction l with
  | nil => simp [insertDescBy]
  | cons y ys ih =>
    rw [List.pairwise_cons] at h
    obtain ⟨hy, hys⟩ := h
    unfold insertDescBy
    by_cases hxy : key x < key y
    · rw [if_pos hxy, List.pairwise_cons]
      refine ⟨?_, ih hys⟩
      intro b hb
      rcases (mem_insertDescBy key x b ys).mp hb with rfl | hb'
      · exact le_of_lt hxy
      · exact hy b hb'
    · rw [if_neg hxy, List.pairwise_cons]
      refine ⟨?_, List.pairwise_cons.mpr ⟨hy, hys⟩⟩
      intro b hb
      rcases List.mem_cons.mp hb with rfl | hb'
      · exact le_of_not_lt hxy
      · exact le_trans (hy b hb') (le_of_not_lt hxy)

theorem sortDescBy_perm {α κ : Type} [LinearOrder κ] (key : α → κ)
    (l : List α) : (sortDescBy key l).Perm l := by
  induction l with
  | nil => rfl
  | cons y ys ih =>
    exact (insertDescBy_perm key y (sortDescBy key ys)).trans (ih.cons y)

theorem sortDescBy_pairwise {α κ : Type} [LinearOrder κ] (key : α → κ)
    (l : List α) : (sortDescBy key l).Pairwise fun a b => key b ≤ key a := by
  induction l with
  | nil => simp [sortDescBy]
  | cons y ys ih => exact insertDescBy_pairwise key y _ ih

/-- C6: `CrossLinker.find_related_documents` returns a list bounded to
`max_related_documents` (default 5), sorted relevance-descending, in which
every entry comes from a collection document distinct from the target whose
relevance reaches `relevance_threshold` (default 0.4) — in particular no
entry carries the target's own slug. -/
theorem find_related_documents_contract (cfg : CLConfig) (target : CLDoc)
    (docs : List CLDoc) (e : RelatedEntry)
    (he : e ∈ findRelatedDocuments cfg target docs) :
    (findRelatedDocuments cfg target docs).length ≤ cfg.max_related_documents ∧
    ((findRelatedDocuments cfg target docs).Pairwise fun a b =>
      b.relevance ≤ a.relevance) ∧
    e.slug ≠ target.slug ∧
    ∃ d ∈ docs, d.slug ≠ target.slug ∧
      cfg.relevance_threshold ≤ calcRelevance target d (allTopics target) ∧
      e = ⟨d.slug, d.title, round3 (calcRelevance target d (allTopics target)),
           determineRelationshipType target d
             (calcRelevance target d (allTopics target))⟩ := by
  refine ⟨?_, ?_, ?_⟩
  · rw [findRelatedDocuments, List.length_take]
    exact min_le_left _ _
  · exact ((sortDescBy_pairwise _ _).sublist (List.take_sublist _ _))
  · have he1 : e ∈ sortDescBy (fun x => x.relevance)
        (docs.filterMap fun doc =>
          if doc.slug = target.slug then none
          else
            if cfg.relevance_threshold ≤ calcRelevance target doc (allTopics target) then
              some ⟨doc.slug, doc.title,
                round3 (calcRelevance target doc (allTopics target)),
                determineRelationshipType target doc
                  (calcRelevance target doc (allTopics target))⟩
            else none) := List.take_subset _ _ he
    rw [(sortDescBy_perm _ _).mem_iff, List.mem_filterMap] at he1
    obtain ⟨d, hd, hfd⟩ := he1
    by_cases hslug : d.slug = target.slug
    · rw [if_pos hslug] at hfd
      exact absurd hfd (by simp)
    · rw [if_neg hslug] at hfd
      by_cases hr : cfg.relevance_threshold ≤ calcRelevance target d (allTopics target)
      · rw [if_pos hr, Option.some.injEq] at hfd
        subst hfd
        exact ⟨hslug, d, hd, hslug, hr, rfl⟩
      · rw [if_neg hr] at hfd
        exact absurd hfd (by simp)

/-- Witness for `find_related_documents_contract`: a concrete collection in
which the single candidate (equal fingerprints, equal quality, relevance
exactly 0.4) qualifies, and the returned entry does not carry the target's
slug. -/
theorem find_related_documents_contract_witness :
    RelatedEntry.slug ⟨"d", "D", 2/5, "tangentially-related"⟩ ≠
      CLDoc.slug ⟨"t", "T", [], [], "", "abcd", some (4/5)⟩ := by
  have hrel : calcRelevance ⟨"t", "T", [], [], "", "abcd", some (4/5)⟩
      ⟨"d", "D", [], [], "", "abcd", some (4/5)⟩
      (allTopics ⟨"t", "T", [], [], "", "abcd", some (4/5)⟩) = 2/5 := by
    have habc : (("abcd" : String) = "") ↔ False := by simp
    norm_num [calcRelevance, allTopics, calcPathSimilarity,
      calcFingerprintSimilarity, calcQualityCompatibility, min_def, habc]
  have hrt : determineRelationshipType ⟨"t", "T", [], [], "", "abcd", some (4/5)⟩
      ⟨"d", "D", [], [], "", "abcd", some (4/5)⟩ (2/5) = "tangentially-related" := by
    norm_num [determineRelationshipType]
  have hr3 : round3 (2/5) = 2/5 := by
    norm_num [round3, round_eq]
  have hcomp : findRelatedDocuments ⟨5, 3/10, 2/5⟩
      ⟨"t", "T", [], [], "", "abcd", some (4/5)⟩
      [⟨"d", "D", [], [], "", "abcd", some (4/5)⟩] =
      [⟨"d", "D", 2/5, "tangentially-related"⟩] := by
    norm_num [findRelatedDocuments, List.filterMap_cons, List.filterMap_nil,
      hrel, hrt, hr3, sortDescBy, insertDescBy]
    simp [insertDescBy]
  exact (find_related_documents_contract ⟨5, 3/10, 2/5⟩
      ⟨"t", "T", [], [], "", "abcd", some (4/5)⟩
      [⟨"d", "D", [], [], "", "abcd", some (4/5)⟩]
      ⟨"d", "D", 2/5, "tangentially-related"⟩
      (by rw [hcomp]; exact List.mem_singleton_self _)).2.2.1

theorem char_toLower_not_upper (c : Char) : c.toLower.isUpper = false := by
  unfold Char.toLower
  by_cases h : c.toNat ≥ 65 ∧ c.toNat ≤ 90
  · rw [if_pos h]
    have hv : (c.toNat + 32).isValidChar := by
      left
      have := h.2
      omega
    have hn : (Char.ofNat (c.toNat + 32)).toNat = c.toNat + 32 := by
      unfold Char.ofNat
      rw [dif_pos hv]
      rfl
    unfold Char.isUpper
    have hle : ¬ ((Char.ofNat (c.toNat + 32)).val ≤ 90) := by
      rw [UInt32.le_def, BitVec.le_def]
      unfold Char.toNat at hn
      intro hx
      have e1 : (Char.ofNat (c.toNat + 32)).val.toBitVec.toNat = c.toNat + 32 := hn
      have e2 : ((90 : UInt32)).toBitVec.toNat = 90 := rfl
      omega
    simp [hle]
  · rw [if_neg h]
    unfold Char.isUpper
    simp only [Bool.and_eq_false_iff, decide_eq_false_iff_not, ge_iff_le]
    push_neg at h
    by_cases hc : 65 ≤ c.toNat
    · right
      intro hx
      rw [UInt32.le_def, BitVec.le_def] at hx
      have e1 : c.val.toBitVec.toNat = c.toNat := rfl
      have e2 : ((90 : UInt32)).toBitVec.toNat = 90 := rfl
      have := h hc
      omega
    · left
      intro hx
      rw [UInt32.le_def, BitVec.le_def] at hx
      have e1 : c.val.toBitVec.toNat = c.toNat := rfl
      have e2 : ((65 : UInt32)).toBitVec.toNat = 65 := rfl
      omega

theorem mem_pyLower_not_upper {l : List Char} {c : Char} (hc : c ∈ pyLower l) :
    c.isUpper = false := by
  obtain ⟨c', _, rfl⟩ := List.mem_map.mp hc
  exact char_toLower_not_upper c'

theorem mem_splitRuns_subset (p : Char → Bool) :
    ∀ (l : List Char), ∀ piece ∈ splitRuns p l, ∀ c ∈ piece, c ∈ l := by
  intro l
  induction l with
  | nil =>
    intro piece hp c hc
    simp only [splitRuns, List.mem_singleton] at hp
    subst hp
    simp at hc
  | cons a rest ih =>
    intro piece hp c hc
    rw [splitRuns] at hp
    split at hp
    · simp only [List.mem_singleton] at hp
      subst hp
      simp at hc
    · next piece0 pieces0 hsr =>
      have hmem : piece ∈ piece0 :: pieces0 → c ∈ a :: rest := by
        intro hmem'
        exact List.mem_cons_of_mem a (ih piece (hsr ▸ hmem') c hc)
      split at hp
      · split at hp
        · rcases List.mem_cons.mp hp with rfl | hp'
          · simp at hc
          · exact hmem hp'
        · split at hp
          · exact hmem hp
          · rcases List.mem_cons.mp hp with rfl | hp'
            · simp at hc
            · exact hmem hp'
      · rcases List.mem_cons.mp hp with rfl | hp'
        · rcases List.mem_cons.mp hc with rfl | hc'
          · exact List.mem_cons_self _ _
          · exact List.mem_cons_of_mem a
              (ih piece0 (hsr ▸ List.mem_cons_self _ _) c hc')
        · exact hmem (List.mem_cons_of_mem _ hp')

theorem mem_dedupFirstAux {α : Type} [BEq α] (seen l : List α) (x : α)
    (hx : x ∈ dedupFirstAux seen l) : x ∈ l := by
  induction l generalizing seen with
  | nil => simp [dedupFirstAux] at hx
  | cons a rest ih =>
    rw [dedupFirstAux] at hx
    by_cases hs : seen.contains a
    · rw [if_pos hs] at hx
      exact List.mem_cons_of_mem a (ih seen hx)
    · rw [if_neg hs] at hx
      rcases List.mem_cons.mp hx with rfl | hx'
      · exact List.mem_cons_self _ _
      · exact List.mem_cons_of_mem a (ih (a :: seen) hx')

theorem mem_dedupFirst {α : Type} [BEq α] {l : List α} {x : α}
    (hx : x ∈ dedupFirst l) : x ∈ l :=
  mem_dedupFirstAux [] l x hx

theorem not_contains_of_strings {l : List String} {x : String}
    (h : l.contains x = false) : x ∉ l := by
  intro hmem
  have h2 : l.contains x = true := List.elem_iff.mpr hmem
  rw [h] at h2
  exact Bool.false_ne_true h2

/-- Shape of every token the three token-deriving paths of the
`TopicExtractor` produce: no upper-case ASCII letter, length above 2, not a
stop word. -/
def DerivedTokenOk (t : String) : Prop :=
  (∀ c ∈ t.data, c.isUpper = false) ∧ 2 < t.length ∧ t ∉ teStopWords

theorem tokenOf_data (cs : List Char) : (tokenOf cs).data = cs := rfl

theorem tokenOf_length (cs : List Char) : (tokenOf cs).length = cs.length := rfl

theorem extractFromPath_ok (path : String) :
    ∀ t ∈ extractFromPath path, DerivedTokenOk t := by
  intro t ht
  unfold extractFromPath at ht
  by_cases hp : path = ""
  · rw [if_pos hp] at ht
    simp at ht
  · rw [if_neg hp] at ht
    obtain ⟨part, _, ht2⟩ := List.mem_flatMap.mp ht
    simp only at ht2
    obtain ⟨w, hw, rfl⟩ := List.mem_map.mp ht2
    obtain ⟨hwmem, hwcond⟩ := List.mem_filter.mp hw
    rw [Bool.and_eq_true, decide_eq_true_eq, Bool.not_eq_true'] at hwcond
    refine ⟨?_, ?_, ?_⟩
    · intro c hc
      rw [tokenOf_data] at hc
      exact mem_pyLower_not_upper
        (mem_splitRuns_subset _ _ w hwmem c hc)
    · rw [tokenOf_length]
      exact hwcond.1
    · exact not_contains_of_strings hwcond.2

theorem extractFromHeadings_ok (content : String) :
    ∀ t ∈ extractFromHeadings content, DerivedTokenOk t := by
  intro t ht
  unfold extractFromHeadings at ht
  obtain ⟨heading, _, ht2⟩ := List.mem_flatMap.mp ht
  simp only at ht2
  obtain ⟨w, hw, rfl⟩ := List.mem_map.mp ht2
  obtain ⟨hwmem, hwcond⟩ := List.mem_filter.mp hw
  rw [Bool.and_eq_true, decide_eq_true_eq, Bool.not_eq_true'] at hwcond
  refine ⟨?_, ?_, ?_⟩
  · intro c hc
    rw [tokenOf_data] at hc
    have hw2 := List.mem_filter.mp hwmem
    have hcc : c ∈ (pyLower heading).map fun c =>
        if !isWordChar c && !c.isWhitespace && c ≠ '-' then ' ' else c :=
      mem_splitRuns_subset _ _ w hw2.1 c hc
    obtain ⟨b, hb, rfl⟩ := List.mem_map.mp hcc
    by_cases hcond : (!isWordChar b && !b.isWhitespace && b ≠ '-' : Bool)
    · rw [if_pos hcond]
      rfl
    · rw [if_neg hcond]
      exact mem_pyLower_not_upper hb
  · rw [tokenOf_length]
    exact hwcond.1
  · exact not_contains_of_strings hwcond.2

theorem wordTokens_ok (l : List Char) :
    ∀ w ∈ wordTokens l, (∀ c ∈ w, c ∈ l) ∧ 3 ≤ w.length := by
  intro w hw
  obtain ⟨hwmem, hwcond⟩ := List.mem_filter.mp hw
  rw [Bool.and_eq_true, decide_eq_true_eq] at hwcond
  exact ⟨fun c hc => mem_splitRuns_subset _ _ w hwmem c hc, hwcond.1⟩

theorem extractFromKeywords_ok (minFreq : ℕ) (cleanContent : String → String)
    (content : String) :
    ∀ t ∈ extractFromKeywords minFreq cleanContent content, DerivedTokenOk t := by
  intro t ht
  unfold extractFromKeywords at ht
  obtain ⟨w, hw, rfl⟩ := List.mem_map.mp ht
  obtain ⟨hwmem, _⟩ := List.mem_filter.mp hw
  have hwf : w ∈ (wordTokens (pyLower (cleanContent content).toList)).filter
      fun w => !teStopWords.contains (tokenOf w) := mem_dedupFirst hwmem
  obtain ⟨hwt, hwstop⟩ := List.mem_filter.mp hwf
  rw [Bool.not_eq_true'] at hwstop
  obtain ⟨hsub, hlen⟩ := wordTokens_ok _ w hwt
  refine ⟨?_, ?_, not_contains_of_strings hwstop⟩
  · intro c hc
    rw [tokenOf_data] at hc
    exact mem_pyLower_not_upper (hsub c hc)
  · rw [tokenOf_length]
    omega

theorem extractFromMetadata_ok (metaTopics : List String) (title : String) :
    ∀ t ∈ extractFromMetadata metaTopics title,
      t ∈ metaTopics ∨ DerivedTokenOk t := by
  intro t ht
  unfold extractFromMetadata at ht
  rcases List.mem_append.mp ht with h | h
  · exact Or.inl h
  · right
    obtain ⟨w, hw, rfl⟩ := List.mem_map.mp h
    obtain ⟨hwt, hwstop⟩ := List.mem_filter.mp hw
    rw [Bool.not_eq_true'] at hwstop
    obtain ⟨hsub, hlen⟩ := wordTokens_ok _ w hwt
    refine ⟨?_, ?_, not_contains_of_strings hwstop⟩
    · intro c hc
      rw [tokenOf_data] at hc
      exact mem_pyLower_not_upper (hsub c hc)
    · rw [tokenOf_length]
      omega

theorem appearsInHeadings_empty_content (t : String) :
    appearsInHeadings t "" = false := rfl

theorem topicScore_empty_content (t : String) : topicScore t "" = 0 := by
  unfold topicScore
  rw [appearsInHeadings_empty_content]
  rcases ht : t.toList with _ | ⟨c, cs⟩
  · have hlen : t.length = 0 := by
      rw [show t.length = t.toList.length from rfl, ht]
      rfl
    rw [hlen]
    have h1 : countSubstr (pyLower "".toList) (pyLower []) = 1 := rfl
    rw [h1]
    norm_num [min_def]
  · have h0 : countSubstr (pyLower "".toList) (pyLower (c :: cs)) = 0 := rfl
    rw [h0]
    norm_num

theorem mem_filterAndRankTopics {candidates : List String} {content : String}
    {t : String} (ht : t ∈ filterAndRankTopics candidates content) :
    t ∈ candidates := by
  unfold filterAndRankTopics at ht
  by_cases hc : candidates = []
  · rw [if_pos hc] at ht
    simp at ht
  · rw [if_neg hc] at ht
    obtain ⟨p, hp, rfl⟩ := List.mem_map.mp ht
    have hp1 : p ∈ sortDescBy (·.2)
        ((dedupFirst candidates).map fun t => (t, topicScore t content)) :=
      (List.mem_filter.mp hp).1
    rw [(sortDescBy_perm _ _).mem_iff] at hp1
    obtain ⟨t', ht', hpt⟩ := List.mem_map.mp hp1
    rw [← hpt]
    exact mem_dedupFirst ht'

theorem filterAndRankTopics_empty_content (candidates : List String) :
    filterAndRankTopics candidates "" = [] := by
  unfold filterAndRankTopics
  by_cases hc : candidates = []
  · rw [if_pos hc]
  · rw [if_neg hc]
    rw [List.filter_eq_nil_iff.mpr, List.map_nil]
    intro p hp
    rw [(sortDescBy_perm _ _).mem_iff] at hp
    obtain ⟨t', _, hpt⟩ := List.mem_map.mp hp
    rw [← hpt]
    simp only [decide_eq_true_eq]
    rw [topicScore_empty_content]
    norm_num

/-- C2 counterexample: a declared metadata topic is added verbatim, with no
lower-casing, length, or stop-word filter — `extract_topics` on content
`"the the"` with declared topic `"the"` returns the stop word `"the"`. -/
theorem extract_topics_counterexample :
    extractTopics ⟨10, 2⟩ (fun s => s) "the the" ["the"] "" "" = ["the"] ∧
    "the" ∈ teStopWords := by
  refine ⟨?_, by decide⟩
  have hcand : dedupFirst (extractFromPath "" ++ extractFromHeadings "the the" ++
      extractFromKeywords 2 (fun s => s) "the the" ++
      extractFromMetadata ["the"] "") = ["the"] := by decide
  have hfreq : countSubstr (pyLower "the the".toList) (pyLower "the".toList) = 2 := by
    decide
  have hhead : appearsInHeadings "the" "the the" = false := by decide
  have hlen : ("the" : String).length = 3 := by decide
  have hscore : topicScore "the" "the the" = 6/5 := by
    unfold topicScore
    rw [hfreq, hhead, hlen]
    norm_num [min_def]
  have hdd : dedupFirst ["the"] = ["the"] := by decide
  have hrank : filterAndRankTopics ["the"] "the the" = ["the"] := by
    unfold filterAndRankTopics
    rw [if_neg (by simp), hdd, List.map_cons, List.map_nil, hscore]
    simp only [sortDescBy, List.foldr, insertDescBy, List.filter,
      decide_eq_true_eq]
    norm_num
  simp only [extractTopics, hcand, hrank]
  rfl

/-- C2 amended: `extract_topics` returns at most `max_topics` topics and
empty content yields an empty topic list; every returned topic either
occurs verbatim in `metadata.topics` (taken unfiltered) or is a derived
token — no upper-case ASCII letter, length greater than 2, and not in the
stop-word set. -/
theorem extract_topics_contract (cfg : TEConfig) (cleanContent : String → String)
    (content : String) (metaTopics : List String) (title : String)
    (sourcePath : String) :
    (extractTopics cfg cleanContent content metaTopics title sourcePath).length ≤
      cfg.max_topics ∧
    (∀ t ∈ extractTopics cfg cleanContent content metaTopics title sourcePath,
      t ∈ metaTopics ∨ DerivedTokenOk t) ∧
    (content = "" →
      extractTopics cfg cleanContent content metaTopics title sourcePath = []) := by
  refine ⟨?_, ?_, ?_⟩
  · unfold extractTopics
    rw [List.length_take]
    exact min_le_left _ _
  · intro t ht
    unfold extractTopics at ht
    have ht1 := List.mem_of_mem_take ht
    have ht2 := mem_dedupFirst (mem_filterAndRankTopics ht1)
    rcases List.mem_append.mp ht2 with h123 | h4
    · rcases List.mem_append.mp h123 with h12 | h3
      · rcases List.mem_append.mp h12 with h1 | h2
        · exact Or.inr (extractFromPath_ok _ t h1)
        · exact Or.inr (extractFromHeadings_ok _ t h2)
      · exact Or.inr (extractFromKeywords_ok _ _ _ t h3)
    · exact extractFromMetadata_ok _ _ t h4
  · intro hcontent
    subst hcontent
    simp only [extractTopics]
    rw [filterAndRankTopics_empty_content]
    exact List.take_nil

/-- Witness for `extract_topics_contract`: empty content yields an empty
topic list even with a declared metadata topic present. -/
theorem extract_topics_contract_witness :
    extractTopics ⟨10, 2⟩ (fun s => s) "" ["x"] "" "" = [] :=
  (extract_topics_contract ⟨10, 2⟩ (fun s => s) "" ["x"] "" "").2.2 rfl

theorem lookupCount_cons_self (k : String) (n : ℕ) (rest : List (String × ℕ)) :
    lookupCount ((k, n) :: rest) k = n := by
  unfold lookupCount
  rw [List.find?_cons_of_pos _ (by simp)]
  rfl

theorem lookupCount_cons_ne (k w : String) (n : ℕ) (rest : List (String × ℕ))
    (h : w ≠ k) : lookupCount ((k, n) :: rest) w = lookupCount rest w := by
  unfold lookupCount
  rw [List.find?_cons_of_neg _ (by simp [Ne.symm h])]

theorem sum_keys_sq (l : List (String × ℕ)) (h : (l.map Prod.fst).Nodup) :
    ∑ w ∈ (l.map Prod.fst).toFinset, lookupCount l w * lookupCount l w =
      (l.map fun p => p.2 * p.2).sum := by
  induction l with
  | nil => simp [lookupCount]
  | cons p rest ih =>
    obtain ⟨k, n⟩ := p
    rw [List.map_cons] at h
    have hk : k ∉ rest.map Prod.fst := (List.nodup_cons.mp h).1
    have hrest := (List.nodup_cons.mp h).2
    rw [List.map_cons, List.toFinset_cons,
      Finset.sum_insert (by simpa using hk), lookupCount_cons_self,
      List.map_cons, List.sum_cons]
    congr 1
    rw [← ih hrest]
    apply Finset.sum_congr rfl
    intro w hw
    have hwk : w ≠ k := by
      intro heq
      subst heq
      exact hk (List.mem_toFinset.mp hw)
    rw [lookupCount_cons_ne _ _ _ _ hwk]

theorem vecDot_self (v : WordVec) : vecDot v v = magSq v := by
  unfold vecDot magSq WordVec.cnt WordVec.keys
  rw [Finset.inter_self]
  exact sum_keys_sq v.entries v.nodupKeys

theorem magSq_pos (v : WordVec) (hv : v.entries ≠ []) : 0 < magSq v := by
  obtain ⟨p, t, he⟩ := List.exists_cons_of_ne_nil hv
  unfold magSq
  rw [he, List.map_cons, List.sum_cons]
  have hp : 0 < p.2 := v.posCounts p (he ▸ List.mem_cons_self _ _)
  exact Nat.lt_of_lt_of_le (Nat.mul_pos hp hp) (Nat.le_add_right _ _)

theorem calcSimilarity_comm (v1 v2 : WordVec) :
    calcSimilarity v1 v2 = calcSimilarity v2 v1 := by
  unfold calcSimilarity
  by_cases h1 : v1.entries = [] ∨ v2.entries = []
  · rw [if_pos h1, if_pos (Or.symm h1)]
  · rw [if_neg h1, if_neg (show ¬(v2.entries = [] ∨ v1.entries = []) from
      fun hc => h1 (Or.symm hc))]
    by_cases h2 : v1.keys ∩ v2.keys = ∅
    · rw [if_pos h2, if_pos (show v2.keys ∩ v1.keys = ∅ by
        rw [Finset.inter_comm]; exact h2)]
    · rw [if_neg h2, if_neg (show ¬v2.keys ∩ v1.keys = ∅ by
        rw [Finset.inter_comm]; exact h2)]
      by_cases h3 : Real.sqrt (magSq v1) = 0 ∨ Real.sqrt (magSq v2) = 0
      · rw [if_pos h3, if_pos (Or.symm h3)]
      · rw [if_neg h3, if_neg (show ¬(Real.sqrt (magSq v2) = 0 ∨
            Real.sqrt (magSq v1) = 0) from fun hc => h3 (Or.symm hc))]
        have hdot : vecDot v1 v2 = vecDot v2 v1 := by
          unfold vecDot
          rw [Finset.inter_comm]
          exact Finset.sum_congr rfl fun w _ => Nat.mul_comm _ _
        rw [hdot, mul_comm (Real.sqrt (magSq v2)) (Real.sqrt (magSq v1))]

theorem calcSimilarity_nonneg (v1 v2 : WordVec) : 0 ≤ calcSimilarity v1 v2 := by
  unfold calcSimilarity
  split_ifs <;> simp [le_max_left]

theorem calcSimilarity_le_one (v1 v2 : WordVec) : calcSimilarity v1 v2 ≤ 1 := by
  unfold calcSimilarity
  split_ifs
  · norm_num
  · norm_num
  · norm_num
  · exact max_le zero_le_one (min_le_left 1 _)

theorem calcSimilarity_self (v : WordVec) (hv : v.entries ≠ []) :
    calcSimilarity v v = 1 := by
  unfold calcSimilarity
  rw [if_neg (by simp [hv])]
  have hkeys : ¬ (v.keys ∩ v.keys = ∅) := by
    rw [Finset.inter_self]
    obtain ⟨p, t, he⟩ := List.exists_cons_of_ne_nil hv
    intro hempty
    have hmem : p.1 ∈ v.keys := by
      unfold WordVec.keys
      rw [he]
      simp
    rw [hempty] at hmem
    simp at hmem
  rw [if_neg hkeys]
  have hm : 0 < magSq v := magSq_pos v hv
  have hmR : (0 : ℝ) < (magSq v : ℝ) := by exact_mod_cast hm
  have hsq : Real.sqrt (magSq v) ≠ 0 := by
    rw [Real.sqrt_ne_zero']
    exact hmR
  rw [if_neg (by push_neg; exact ⟨hsq, hsq⟩)]
  rw [vecDot_self, Real.mul_self_sqrt (le_of_lt hmR), div_self (ne_of_gt hmR)]
  norm_num

theorem similarityPairsLoop_mem (cfg : SimConfig) (vec : String → WordVec) :
    ∀ (docs : List SimDoc) (s : String) (l : List SimEntry),
      (s, l) ∈ similarityPairsLoop cfg vec docs →
      l ≠ [] ∧ ∃ pre d1 rest, docs = pre ++ d1 :: rest ∧ d1.slug = s ∧
        ∃ d2 ∈ rest, calcSimilarity (vec d1.slug) (vec d2.slug) ≥
          cfg.similarity_threshold := by
  intro docs
  induction docs with
  | nil =>
    intro s l h
    simp [similarityPairsLoop] at h
  | cons d rest ih =>
    intro s l h
    rw [similarityPairsLoop] at h
    rcases List.mem_append.mp h with hl | hr
    · split at hl
      · simp at hl
      · next e es hse =>
        simp only [List.mem_singleton, Prod.mk.injEq] at hl
        obtain ⟨hs, hlv⟩ := hl
        subst hlv
        constructor
        · intro hnil
          have hlen := (sortDescBy_perm
            (fun x : SimEntry => x.similarity) (e :: es)).length_eq
          rw [hnil] at hlen
          simp at hlen
        · refine ⟨[], d, rest, rfl, hs.symm, ?_⟩
          have he : e ∈ simEntriesFor cfg vec d rest := by
            rw [hse]
            exact List.mem_cons_self _ _
          unfold simEntriesFor at he
          obtain ⟨d2, hd2, hfd⟩ := List.mem_filterMap.mp he
          by_cases hcond : calcSimilarity (vec d.slug) (vec d2.slug) ≥
              cfg.similarity_threshold
          · exact ⟨d2, hd2, hcond⟩
          · rw [if_neg hcond] at hfd
            simp at hfd
    · obtain ⟨hne, pre, d1, rest', heq, hslug, d2, hd2, hsim⟩ := ih s l hr
      exact ⟨hne, d :: pre, d1, rest', by rw [heq, List.cons_append], hslug,
        d2, hd2, hsim⟩

theorem similarityPairsLoop_sorted (cfg : SimConfig) (vec : String → WordVec) :
    ∀ (docs : List SimDoc), ∀ p ∈ similarityPairsLoop cfg vec docs,
      (p.2).Pairwise fun a b : SimEntry => b.similarity ≤ a.similarity := by
  intro docs
  induction docs with
  | nil =>
    intro p hp
    simp [similarityPairsLoop] at hp
  | cons d rest ih =>
    intro p hp
    rw [similarityPairsLoop] at hp
    rcases List.mem_append.mp hp with hl | hr
    · split at hl
      · simp at hl
      · simp only [List.mem_singleton] at hl
        subst hl
        exact sortDescBy_pairwise _ _
    · exact ih p hr

theorem similarityPairsLoop_records (cfg : SimConfig) (vec : String → WordVec)
    (d1 d2 : SimDoc) (mid post : List SimDoc)
    (hsim : calcSimilarity (vec d1.slug) (vec d2.slug) ≥
      cfg.similarity_threshold) :
    ∀ pre : List SimDoc,
      ∃ l, (d1.slug, l) ∈
          similarityPairsLoop cfg vec (pre ++ d1 :: (mid ++ d2 :: post)) ∧
        (⟨d2.slug, d2.title,
          round3R (calcSimilarity (vec d1.slug) (vec d2.slug)),
          if calcSimilarity (vec d1.slug) (vec d2.slug) ≥
              cfg.duplicate_threshold then "duplicate"
          else "similar"⟩ : SimEntry) ∈ l := by
  intro pre
  induction pre with
  | nil =>
    rw [List.nil_append, similarityPairsLoop]
    have hmem : (⟨d2.slug, d2.title,
        round3R (calcSimilarity (vec d1.slug) (vec d2.slug)),
        if calcSimilarity (vec d1.slug) (vec d2.slug) ≥
            cfg.duplicate_threshold then "duplicate"
        else "similar"⟩ : SimEntry) ∈
        simEntriesFor cfg vec d1 (mid ++ d2 :: post) := by
      unfold simEntriesFor
      refine List.mem_filterMap.mpr ⟨d2, by simp, ?_⟩
      rw [if_pos hsim]
    rcases hse : simEntriesFor cfg vec d1 (mid ++ d2 :: post) with _ | ⟨e, es⟩
    · rw [hse] at hmem
      simp at hmem
    · rw [hse] at hmem
      refine ⟨sortDescBy (·.similarity) (e :: es), ?_, ?_⟩
      · exact List.mem_append_left _ (List.mem_singleton_self _)
      · rw [(sortDescBy_perm _ _).mem_iff]
        exact hmem
  | cons p pre ih =>
    obtain ⟨l, hl, he⟩ := ih
    refine ⟨l, ?_, he⟩
    rw [List.cons_append, similarityPairsLoop]
    exact List.mem_append_right _ hl

/-- C9: a slug appears as a key of the `find_similar_documents` mapping only
with a non-empty entry list, and only when the document at that slug has a
later document in the collection whose similarity to it reaches the
threshold; documents with no similar counterpart are absent from the
mapping. -/
theorem find_similar_documents_no_empty_lists (cfg : SimConfig)
    (vecOf : String → WordVec) (docs : List SimDoc) (s : String)
    (l : List SimEntry)
    (hmem : (s, l) ∈ findSimilarDocuments cfg vecOf docs) :
    l ≠ [] ∧ ∃ pre d1 rest, docs = pre ++ d1 :: rest ∧ d1.slug = s ∧
      ∃ d2 ∈ rest,
        calcSimilarity (docVector vecOf docs d1.slug)
          (docVector vecOf docs d2.slug) ≥ cfg.similarity_threshold :=
  similarityPairsLoop_mem cfg (docVector vecOf docs) docs s l hmem

theorem findSimilar_concrete_eval :
    findSimilarDocuments ⟨0.8, 0.95⟩ (fun _ => singleWordVec)
      [⟨"s1", "T1", "apple"⟩, ⟨"s2", "T2", "apple"⟩] =
      [("s1", [⟨"s2", "T2", 1, "duplicate"⟩])] := by
  have hself : calcSimilarity singleWordVec singleWordVec = 1 :=
    calcSimilarity_self _ (by decide)
  have hdv : ∀ s, docVector (fun _ => singleWordVec)
      [⟨"s1", "T1", "apple"⟩, ⟨"s2", "T2", "apple"⟩] s = singleWordVec := by
    intro s
    unfold docVector
    cases (List.filter (fun d : SimDoc => d.slug == s)
        ([⟨"s1", "T1", "apple"⟩, ⟨"s2", "T2", "apple"⟩] : List SimDoc)).getLast? <;>
      rfl
  have hr1 : round3R 1 = 1 := by
    unfold round3R
    norm_num
  have hentries : simEntriesFor ⟨0.8, 0.95⟩
      (docVector (fun _ => singleWordVec)
        [⟨"s1", "T1", "apple"⟩, ⟨"s2", "T2", "apple"⟩])
      ⟨"s1", "T1", "apple"⟩ [⟨"s2", "T2", "apple"⟩] =
      [⟨"s2", "T2", 1, "duplicate"⟩] := by
    unfold simEntriesFor
    simp only [List.filterMap_cons, List.filterMap_nil, hdv, hself, hr1]
    norm_num
  have hempty : simEntriesFor ⟨0.8, 0.95⟩
      (docVector (fun _ => singleWordVec)
        [⟨"s1", "T1", "apple"⟩, ⟨"s2", "T2", "apple"⟩])
      ⟨"s2", "T2", "apple"⟩ [] = [] := rfl
  unfold findSimilarDocuments
  rw [similarityPairsLoop, hentries, similarityPairsLoop, hempty,
    similarityPairsLoop]
  simp [sortDescBy, insertDescBy]

/-- C1 counterexample: two one-word documents with identical content have
similarity 1 ≥ 0.8, yet the pair is recorded only under the first
document's slug — the mapping's only key is `"s1"`, so the entry is NOT
recorded in both documents' result lists. -/
theorem find_similar_documents_counterexample :
    calcSimilarity
      (docVector (fun _ => singleWordVec)
        [⟨"s1", "T1", "apple"⟩, ⟨"s2", "T2", "apple"⟩] "s1")
      (docVector (fun _ => singleWordVec)
        [⟨"s1", "T1", "apple"⟩, ⟨"s2", "T2", "apple"⟩] "s2") ≥
      (⟨0.8, 0.95⟩ : SimConfig).similarity_threshold ∧
    findSimilarDocuments ⟨0.8, 0.95⟩ (fun _ => singleWordVec)
      [⟨"s1", "T1", "apple"⟩, ⟨"s2", "T2", "apple"⟩] =
      [("s1", [⟨"s2", "T2", 1, "duplicate"⟩])] ∧
    (findSimilarDocuments ⟨0.8, 0.95⟩ (fun _ => singleWordVec)
      [⟨"s1", "T1", "apple"⟩, ⟨"s2", "T2", "apple"⟩]).map Prod.fst =
      ["s1"] := by
  refine ⟨?_, findSimilar_concrete_eval, ?_⟩
  · show calcSimilarity singleWordVec singleWordVec ≥ (0.8 : ℝ)
    rw [calcSimilarity_self _ (by decide)]
    norm_num
  · rw [findSimilar_concrete_eval]
    rfl

/-- C1 amended: for documents at positions `i < j` whose similarity reaches
`similarity_threshold` (default 0.8), `find_similar_documents` records the
pair in the EARLIER document's result list only (the entry for document `j`
appears in `i`'s list; nothing is recorded under `j` for this pair),
labelled `"duplicate"` when similarity also reaches `duplicate_threshold`
(default 0.95) and `"similar"` otherwise, and every recorded per-document
list is sorted similarity-descending. -/
theorem find_similar_documents_first_doc_recording (cfg : SimConfig)
    (vecOf : String → WordVec) (pre mid post : List SimDoc) (d1 d2 : SimDoc)
    (hsim : calcSimilarity
        (docVector vecOf (pre ++ d1 :: (mid ++ d2 :: post)) d1.slug)
        (docVector vecOf (pre ++ d1 :: (mid ++ d2 :: post)) d2.slug) ≥
        cfg.similarity_threshold) :
    (∃ l, (d1.slug, l) ∈
        findSimilarDocuments cfg vecOf (pre ++ d1 :: (mid ++ d2 :: post)) ∧
      (⟨d2.slug, d2.title,
        round3R (calcSimilarity
          (docVector vecOf (pre ++ d1 :: (mid ++ d2 :: post)) d1.slug)
          (docVector vecOf (pre ++ d1 :: (mid ++ d2 :: post)) d2.slug)),
        if calcSimilarity
            (docVector vecOf (pre ++ d1 :: (mid ++ d2 :: post)) d1.slug)
            (docVector vecOf (pre ++ d1 :: (mid ++ d2 :: post)) d2.slug) ≥
            cfg.duplicate_threshold then "duplicate"
        else "similar"⟩ : SimEntry) ∈ l) ∧
    (∀ p ∈ findSimilarDocuments cfg vecOf (pre ++ d1 :: (mid ++ d2 :: post)),
      (p.2).Pairwise fun a b : SimEntry => b.similarity ≤ a.similarity) :=
  ⟨similarityPairsLoop_records cfg
      (docVector vecOf (pre ++ d1 :: (mid ++ d2 :: post))) d1 d2 mid post
      hsim pre,
   similarityPairsLoop_sorted cfg
      (docVector vecOf (pre ++ d1 :: (mid ++ d2 :: post))) _⟩

/-- Witness for `find_similar_documents_first_doc_recording`: the recorded
list of the concrete two-document run is sorted similarity-descending. -/
theorem find_similar_documents_first_doc_recording_witness :
    ([⟨"s2", "T2", (1 : ℝ), "duplicate"⟩] : List SimEntry).Pairwise
      (fun a b : SimEntry => b.similarity ≤ a.similarity) :=
  (find_similar_documents_first_doc_recording ⟨0.8, 0.95⟩
      (fun _ => singleWordVec) [] [] [] ⟨"s1", "T1", "apple"⟩
      ⟨"s2", "T2", "apple"⟩
      (by
        show calcSimilarity singleWordVec singleWordVec ≥ (0.8 : ℝ)
        rw [calcSimilarity_self _ (by decide)]
        norm_num)).2
    ("s1", [⟨"s2", "T2", 1, "duplicate"⟩])
    (by
      show ("s1", [⟨"s2", "T2", (1 : ℝ), "duplicate"⟩]) ∈
        findSimilarDocuments ⟨0.8, 0.95⟩ (fun _ => singleWordVec)
          [⟨"s1", "T1", "apple"⟩, ⟨"s2", "T2", "apple"⟩]
      rw [findSimilar_concrete_eval]
      exact List.mem_singleton_self _)

/-- Witness for `find_similar_documents_no_empty_lists`: the single recorded
list of the concrete two-document run is non-empty. -/
theorem find_similar_documents_no_empty_lists_witness :
    ([⟨"s2", "T2", (1 : ℝ), "duplicate"⟩] : List SimEntry) ≠ [] :=
  (find_similar_documents_no_empty_lists ⟨0.8, 0.95⟩ (fun _ => singleWordVec)
    [⟨"s1", "T1", "apple"⟩, ⟨"s2", "T2", "apple"⟩] "s1"
    [⟨"s2", "T2", 1, "duplicate"⟩]
    (by
      rw [findSimilar_concrete_eval]
      exact List.mem_singleton_self _)).1

end Contextor
